import Mathlib

/-!
Verification of the greenlight browser-automation core: the CDP
(Chrome DevTools Protocol) session transport (`pkg/browser/browser.go`)
and the element-action retry engine (the `Locator` operations of the
page package).  Go's `map[string]interface{}` JSON payloads are embedded
as an inductive `JValue` type; CDP identifiers are integers, so JSON
numbers are embedded as `Int`.  Real time is idealized: existence polls
are instantaneous and the only time that passes inside a polling loop is
the 350 ms sleep between poll attempts.  Randomness (`math/rand`) and
I/O (WebSocket frames, `Runtime.evaluate` responses, reconnection
results) are supplied by explicit oracle parameters.
-/

namespace Greenlight

/-- JSON-like dynamic values, embedding Go's `interface{}` as decoded by
`encoding/json`: objects are association lists (Go maps have unique
keys; only lookups are performed, so ordering is irrelevant). -/
inductive JValue where
  | nullv
  | boolv (b : Bool)
  | numv (n : Int)
  | strv (s : String)
  | arrv (xs : List JValue)
  | objv (fields : List (String × JValue))

/-- Embedding of the Go type assertion `x.(map[string]interface{})`. -/
def JValue.asObj : JValue → Option (List (String × JValue))
  | .objv f => some f
  | _ => none

/-- Embedding of the Go type assertion `x.(bool)`. -/
def JValue.asBool : JValue → Option Bool
  | .boolv b => some b
  | _ => none

/-- Embedding of the Go type assertion `x.(string)`. -/
def JValue.asStr : JValue → Option String
  | .strv s => some s
  | _ => none

/-- Embedding of the Go type assertion `x.(float64)` on a decoded JSON
number (CDP identifiers are integers, so numbers are embedded as `Int`). -/
def JValue.asNum : JValue → Option Int
  | .numv n => some n
  | _ => none

/-- A decoded inbound JSON object (`map[string]interface{}`). -/
abbrev Env := List (String × JValue)

/-- Go map indexing `env["k"]` on a decoded JSON object. -/
def getField (env : Env) (k : String) : Option JValue :=
  List.lookup k env

/-- The identifier of an inbound frame: `response["id"].(float64)` in
`SendCommandWithResponse`'s read loop. -/
def envId (env : Env) : Option Int :=
  (getField env "id").bind JValue.asNum

/-- Abstract state of one WebSocket connection.  `writeFails` is true
when a write on this connection errors (e.g. the socket was closed by
the peer); the `conn.Close()` in `RedLight`/`attachToPage` closes the
socket without setting the Go pointer to nil, which is why a closed
connection is still `some c` with `c.writeFails = true`, not `none`. -/
structure ConnSt where
  writeFails : Bool

/-- The mutable fields of `Browser` relevant to the transport contract:
the `messageID` counter (Go zero value 0) and the nullable `conn`.
The `messageMutex` serializes counter access, so a call's allocation is
one atomic step in this embedding. -/
structure TState where
  messageID : Nat
  conn : Option ConnSt

/-- One outbound command envelope `{"id": id, "method": method,
"params": params}` as built by both send paths. -/
structure OutMsg where
  id : Nat
  method : String
  params : JValue

/-- Result of the write phase of a send path: the envelope that went out
on the wire, or the Go error returned to the caller. -/
inductive SendResult where
  | ok (written : OutMsg)
  | err (msg : String)

/-- Everything observable about one call to a send path: the final
browser state, the identifier allocated under the mutex, how many
reconnection (`attachToPage`) attempts were made, and the result. -/
structure SendOutcome where
  state : TState
  allocatedId : Nat
  attachCount : Nat
  result : SendResult

/-- Embedding of `Browser.SendCommandWithoutResponse` (and of the
identical allocation/reconnect/write prefix of
`SendCommandWithResponse`): increment `messageID` under the mutex, then
if `conn == nil` attempt exactly one `attachToPage` (its outcome is the
oracle `attachRes`; `none` means discovery/dial failed), then
`WriteJSON` the envelope. -/
def SendCommandWithoutResponse (s : TState) (attachRes : Option ConnSt)
    (method : String) (params : JValue) : SendOutcome :=
  let id := s.messageID + 1
  let s1 : TState := { s with messageID := id }
  match s1.conn with
  | none =>
    match attachRes with
    | none => ⟨s1, id, 1, .err "failed to reconnect WebSocket"⟩
    | some c =>
      let s2 : TState := { s1 with conn := some c }
      if c.writeFails then ⟨s2, id, 1, .err "failed to send WebSocket message"⟩
      else ⟨s2, id, 1, .ok ⟨id, method, params⟩⟩
  | some c =>
    if c.writeFails then ⟨s1, id, 0, .err "failed to send WebSocket message"⟩
    else ⟨s1, id, 0, .ok ⟨id, method, params⟩⟩

/-- One inbound event on the connection during a read loop:
a frame `json.Unmarshal` rejects, a decoded frame, or a hard
`ReadMessage` failure. -/
inductive InFrame where
  | malformed
  | parsed (env : Env)
  | readFail (msg : String)

/-- Embedding of the read loop of `Browser.SendCommandWithResponse`:
read frames in order; a hard read error aborts with a Go error;
unparseable frames are logged and skipped; decoded frames whose `id`
does not match are discarded; the first frame whose `id` matches is
returned.  `none` means the stream is exhausted without the loop
terminating (the Go loop would block on the next read). -/
def readLoop (id : Nat) : List InFrame → Option (Except String Env)
  | [] => none
  | .readFail m :: _ => some (.error ("failed to read WebSocket message: " ++ m))
  | .malformed :: rest => readLoop id rest
  | .parsed env :: rest =>
    match envId env with
    | some i => if i = (id : Int) then some (.ok env) else readLoop id rest
    | none => readLoop id rest

/-- Everything observable about one call to
`Browser.SendCommandWithResponse`. -/
structure SendRespOutcome where
  state : TState
  allocatedId : Nat
  attachCount : Nat
  result : Option (Except String Env)

/-- Embedding of `Browser.SendCommandWithResponse`: the same
allocation/reconnect/write code as the without-response path
(the Go source duplicates those statements verbatim), followed by the
read loop over the inbound frames `frames` on write success. -/
def SendCommandWithResponse (s : TState) (attachRes : Option ConnSt)
    (frames : List InFrame) (method : String) (params : JValue) : SendRespOutcome :=
  let o := SendCommandWithoutResponse s attachRes method params
  match o.result with
  | .err e => ⟨o.state, o.allocatedId, o.attachCount, some (.error e)⟩
  | .ok m => ⟨o.state, o.allocatedId, o.attachCount, readLoop m.id frames⟩

/-- The per-call outcome of a Locator operation.  `value` is a normal
return to the caller; `error` is a Go error value returned to the
caller (a typed failure); `fatal` is a `log.Fatalf` call, which aborts
the whole process — the Locator operations only ever produce `value`
or `fatal`. -/
inductive Outcome (α : Type) where
  | value (a : α)
  | error (msg : String)
  | fatal (msg : String)
deriving DecidableEq

/-- Whether an outcome is a typed failure returned to the caller (as
opposed to a normal return or a process abort). -/
def Outcome.isTypedFailure : Outcome α → Bool
  | .error _ => true
  | _ => false

/-- One CDP command as handed to a send path: method plus params. -/
structure Cmd where
  method : String
  params : JValue

/-- The existence-check command `Locator.elementExists` sends:
`Runtime.evaluate` on `document.querySelector("sel") !== null` with
`returnByValue: true`. -/
def elementExistsCmd (sel : String) : Cmd :=
  ⟨"Runtime.evaluate", .objv
    [("expression", .strv ("document.querySelector(\"" ++ sel ++ "\") !== null")),
     ("returnByValue", .boolv true)]⟩

/-- The nested type-assertion chain of `Locator.elementExists` on a
decoded response: `response["result"].(map)`, then
`result["result"].(map)`, then `nestedResult["value"].(bool)`; any
mismatch falls through to `(false, "unexpected response format")`. -/
def elementExistsParse (env : Env) : Bool × Option String :=
  match (getField env "result").bind JValue.asObj with
  | some result =>
    match (getField result "result").bind JValue.asObj with
    | some nested =>
      match (getField nested "value").bind JValue.asBool with
      | some v => (v, none)
      | none => (false, some "unexpected response format")
    | none => (false, some "unexpected response format")
  | none => (false, some "unexpected response format")

/-- Embedding of `Locator.elementExists` given the outcome of its
`SendCommandWithResponse` call: a transport error is passed through as
`(false, err)`, otherwise the response envelope is parsed.  Mirrors the
Go `(bool, error)` return pair. -/
def elementExists (resp : Except String Env) : Bool × Option String :=
  match resp with
  | .error e => (false, some e)
  | .ok env => elementExistsParse env

/-- The 30-second deadline shared by every Locator operation, in ms. -/
def timeoutMs : Nat := 30000

/-- The 350 ms poll interval shared by every Locator operation. -/
def intervalMs : Nat := 350

/-- How a Locator polling loop ends: the selector was found on poll `n`
at elapsed time `t`, or the deadline was exceeded at elapsed time `t`
(the Go code then calls `log.Fatalf`). -/
inductive WaitResult where
  | found (n t : Nat)
  | timedOut (t : Nat)
deriving DecidableEq

/-- The polling loop shared by `Fill`, `Click`, `TypeSequentially`,
`TypeWithMistakes` and `InnerText`: abort once elapsed time exceeds the
deadline; otherwise run `elementExists` (its transport response for the
`n`-th poll is the oracle `resps n`); on an error or a false result,
sleep one interval and retry; on a true result, proceed to the action.
Elapsed time advances by exactly one interval per retry (polls are
idealized as instantaneous). -/
def waitFor (resps : Nat → Except String Env) (n t : Nat) : WaitResult :=
  if t > timeoutMs then .timedOut t
  else
    let r := elementExists (resps n)
    match r.2 with
    | some _ => waitFor resps (n + 1) (t + intervalMs)
    | none =>
      if r.1 then .found n t
      else waitFor resps (n + 1) (t + intervalMs)
termination_by timeoutMs + 1 - t
decreasing_by
all_goals simp only [timeoutMs, intervalMs] at *
all_goals omega

/-- The `log.Fatalf` message every Locator loop aborts with on deadline
expiry; it names the selector. -/
def LocatorTimeoutMsg (sel : String) : String :=
  "Timeout exceeded while waiting for selector: " ++ sel

/-- The focus command each action sends first:
`Runtime.evaluate` on `document.querySelector("sel").focus()`. -/
def focusCmd (sel : String) : Cmd :=
  ⟨"Runtime.evaluate", .objv
    [("expression", .strv ("document.querySelector(\"" ++ sel ++ "\").focus()"))]⟩

/-- Fill's select-all chord: `Input.dispatchKeyEvent` keyDown of "a"
with modifiers 2. -/
def selectAllCmd : Cmd :=
  ⟨"Input.dispatchKeyEvent", .objv
    [("type", .strv "keyDown"), ("modifiers", .numv 2), ("key", .strv "a")]⟩

/-- Fill's backspace key event: `Input.dispatchKeyEvent` keyDown of
Backspace. -/
def fillBackspaceCmd : Cmd :=
  ⟨"Input.dispatchKeyEvent", .objv
    [("type", .strv "keyDown"), ("key", .strv "Backspace")]⟩

/-- A text-insertion command `Input.insertText` carrying `s`. -/
def insertTextCmd (s : String) : Cmd :=
  ⟨"Input.insertText", .objv [("text", .strv s)]⟩

/-- The click command: `Runtime.evaluate` on
`document.querySelector("sel").click()` with `awaitPromise: true`. -/
def clickCmd (sel : String) : Cmd :=
  ⟨"Runtime.evaluate", .objv
    [("expression", .strv ("document.querySelector(\"" ++ sel ++ "\").click()")),
     ("awaitPromise", .boolv true)]⟩

/-- The inner-text command: `Runtime.evaluate` on
`document.querySelector("sel").innerText` with `returnByValue: true`. -/
def innerTextCmd (sel : String) : Cmd :=
  ⟨"Runtime.evaluate", .objv
    [("expression", .strv ("document.querySelector(\"" ++ sel ++ "\").innerText")),
     ("returnByValue", .boolv true)]⟩

/-- TypeWithMistakes' corrective backspace: `Input.dispatchKeyEvent`
rawKeyDown of Backspace with virtual key codes 8. -/
def twmBackspaceCmd : Cmd :=
  ⟨"Input.dispatchKeyEvent", .objv
    [("type", .strv "rawKeyDown"), ("key", .strv "Backspace"),
     ("windowsVirtualKeyCode", .numv 8), ("nativeVirtualKeyCode", .numv 8)]⟩

/-- Embedding of `Locator.Fill`: run the polling loop; on timeout,
`log.Fatalf` (a process abort, no commands issued); once the selector
exists, issue focus, select-all, backspace and one `Input.insertText`
carrying the whole value, ignoring the send results (the Go code
discards the errors of all four sends). -/
def Fill (sel v : String) (resps : Nat → Except String Env) :
    Outcome Unit × List Cmd :=
  match waitFor resps 0 0 with
  | .timedOut _ => (.fatal (LocatorTimeoutMsg sel), [])
  | .found _ _ =>
    (.value (), [focusCmd sel, selectAllCmd, fillBackspaceCmd, insertTextCmd v])

/-- Embedding of `Locator.Click`: run the polling loop; on timeout,
`log.Fatalf`; once the selector exists, send one click evaluation
(`clickErr` is the oracle for that send's error) and `log.Fatalf` if it
fails. -/
def Click (sel : String) (resps : Nat → Except String Env)
    (clickErr : Option String) : Outcome Unit × List Cmd :=
  match waitFor resps 0 0 with
  | .timedOut _ => (.fatal (LocatorTimeoutMsg sel), [])
  | .found _ _ =>
    match clickErr with
    | some e =>
      (.fatal ("Failed to click on selector " ++ sel ++ ": " ++ e), [clickCmd sel])
    | none => (.value (), [clickCmd sel])

/-- Embedding of `Locator.TypeSequentially`: run the polling loop; on
timeout, `log.Fatalf`; once the selector exists, focus then insert each
character of the text as its own `Input.insertText`, sleeping `delayMs`
between characters. -/
def TypeSequentially (sel text : String) (delayMs : Nat)
    (resps : Nat → Except String Env) : Outcome Unit × List Cmd :=
  match waitFor resps 0 0 with
  | .timedOut _ => (.fatal (LocatorTimeoutMsg sel), [])
  | .found _ _ =>
    (.value (),
      focusCmd sel :: text.toList.map (fun c => insertTextCmd (String.singleton c)))

/-- The mistaken character Go builds as `string(rand.Int31n(26) + 'a')`:
the random draw is some `k < 26` and the character is `'a' + k`. -/
def wrongChar (k : Fin 26) : Char := Char.ofNat (97 + k.val)

/-- The per-character emission of `Locator.TypeWithMistakes`'s inner
loop, from position `i`: with the oracle `mist i` standing for
`rand.Float32() < 0.4` and `wrong i` for the `rand.Int31n(26)` draw,
a mistaken insertion plus corrective backspace precede the intended
character's insertion. -/
def twmChars (wrong : Nat → Fin 26) (mist : Nat → Bool) :
    List Char → Nat → List Cmd
  | [], _ => []
  | c :: cs, i =>
    (if mist i then
      [insertTextCmd (String.singleton (wrongChar (wrong i))), twmBackspaceCmd]
     else []) ++ insertTextCmd (String.singleton c) :: twmChars wrong mist cs (i + 1)

/-- Embedding of `Locator.TypeWithMistakes`: run the polling loop; on
timeout, `log.Fatalf`; once the selector exists, focus then emit the
per-character command sequence. -/
def TypeWithMistakes (sel text : String) (delayMs : Nat)
    (resps : Nat → Except String Env) (mist : Nat → Bool)
    (wrong : Nat → Fin 26) : Outcome Unit × List Cmd :=
  match waitFor resps 0 0 with
  | .timedOut _ => (.fatal (LocatorTimeoutMsg sel), [])
  | .found _ _ => (.value (), focusCmd sel :: twmChars wrong mist text.toList 0)

/-- The type-assertion chain of `Locator.InnerText` on a decoded
response: `response["result"].(map)` then `result["value"].(string)` —
note the single nesting, unlike `elementExists` which reads
`result["result"]["value"]`. -/
def innerTextExtract (env : Env) : Option String :=
  match (getField env "result").bind JValue.asObj with
  | some result => (getField result "value").bind JValue.asStr
  | none => none

/-- Embedding of `Locator.InnerText`: run the polling loop; on timeout,
`log.Fatalf`; once the selector exists, send the inner-text evaluation
(its transport response is the oracle `actResp`); a transport error or a
failed extraction is a `log.Fatalf`, a successful extraction is the
returned string. -/
def InnerText (sel : String) (resps : Nat → Except String Env)
    (actResp : Except String Env) : Outcome String × List Cmd :=
  match waitFor resps 0 0 with
  | .timedOut _ => (.fatal (LocatorTimeoutMsg sel), [])
  | .found _ _ =>
    match actResp with
    | .error e =>
      (.fatal ("Failed to get inner text for selector " ++ sel ++ ": " ++ e),
       [innerTextCmd sel])
    | .ok env =>
      match innerTextExtract env with
      | some s => (.value s, [innerTextCmd sel])
      | none => (.fatal "Unexpected response format for inner text", [innerTextCmd sel])

/-- A string parameter of a command, e.g. the `text` of an
`Input.insertText` or the `key` of an `Input.dispatchKeyEvent`. -/
def paramStr (c : Cmd) (k : String) : Option String :=
  (c.params.asObj.bind fun f => getField f k).bind JValue.asStr

/-- One step of replaying an emitted command against an input buffer:
`Input.insertText` appends its text, an `Input.dispatchKeyEvent`
carrying key Backspace deletes the last character, every other command
leaves the buffer unchanged. -/
def replayStep (buf : List Char) (c : Cmd) : List Char :=
  if c.method = "Input.insertText" then
    match paramStr c "text" with
    | some s => buf ++ s.toList
    | none => buf
  else if c.method = "Input.dispatchKeyEvent" then
    match paramStr c "key" with
    | some "Backspace" => buf.dropLast
    | _ => buf
  else buf

/-- Replaying a command sequence, in order, against a buffer. -/
def replay (cmds : List Cmd) (buf : List Char) : List Char :=
  cmds.foldl replayStep buf

/-- The operations that touch the `messageID` counter during one
connection's lifetime: the two send paths each allocate one identifier
under the mutex; `attachToPage` (reconnection) does not touch the
counter. -/
inductive BOp where
  | sendWithResp
  | sendWithoutResp
  | reconnect

/-- Whether an operation allocates a request identifier. -/
def BOp.allocates : BOp → Bool
  | .reconnect => false
  | _ => true

/-- Running a serialized sequence of counter-touching operations from
counter value `m` (the mutex makes every allocation atomic, so any
interleaving of concurrent callers is some such sequence): returns the
final counter and the identifiers allocated, in order. -/
def runOps : Nat → List BOp → Nat × List Nat
  | m, [] => (m, [])
  | m, op :: ops =>
    match op with
    | .reconnect => runOps m ops
    | _ =>
      let r := runOps (m + 1) ops
      (r.1, (m + 1) :: r.2)

/-- Which inbound frames the read loop of `SendCommandWithResponse`
discards and keeps waiting past: unparseable frames and decoded frames
whose identifier is absent or differs from the wanted one.  A hard read
failure is not skippable. -/
def Skippable (id : Nat) : InFrame → Prop
  | .malformed => True
  | .parsed env => envId env ≠ some (id : Int)
  | .readFail _ => False

/-- The identifier carried by the envelope a send path put on the wire,
if the write happened. -/
def writtenId : SendResult → Option Nat
  | .ok m => some m.id
  | .err _ => none

/-- A poll-response oracle under which the selector is never found:
every existence check comes back as an error or as false.  This is how
"the selector never matches any element" reaches the polling loop. -/
def NeverFound (resps : Nat → Except String Env) : Prop :=
  ∀ m, elementExists (resps m) ≠ (true, none)

/-- Specification-side extractor for evaluate-style responses, written
to the spec's wire shape `{id, result: {result: {value: ...}}}` (the
doubly-nested envelope, the same shape `elementExists` parses for its
boolean) — named `spec…` because it follows the spec's words, for
comparison with the source-derived `innerTextExtract`. -/
def specEvalStringValue (env : Env) : Option String :=
  ((getField env "result").bind JValue.asObj).bind fun result =>
    ((getField result "result").bind JValue.asObj).bind fun nested =>
      (getField nested "value").bind JValue.asStr

/-- A well-formed doubly-nested existence response carrying `true`. -/
def envTrue : Env :=
  [("id", .numv 1), ("result", .objv [("result", .objv [("value", .boolv true)])])]

/-- A well-formed doubly-nested existence response carrying `false`. -/
def envFalse : Env :=
  [("id", .numv 1), ("result", .objv [("result", .objv [("value", .boolv false)])])]

/-- A well-formed doubly-nested evaluate response carrying the string
"hello" — the spec's inbound success shape for evaluate-style calls. -/
def evalEnvelope : Env :=
  [("id", .numv 1), ("result", .objv [("result", .objv [("value", .strv "hello")])])]

/-- A singly-nested response `{id, result: {value: "hello"}}` — not the
spec's evaluate shape. -/
def singleEnvelope : Env :=
  [("id", .numv 1), ("result", .objv [("value", .strv "hello")])]

/-- A response that parses as JSON but lacks the nested boolean that
`elementExists` expects (it is singly nested). -/
def badShapeEnv : Env :=
  [("id", .numv 1), ("result", .objv [("value", .boolv true)])]

/-- Oracle: every existence poll finds the element immediately. -/
def respsFound : Nat → Except String Env := fun _ => .ok envTrue

/-- Oracle: every existence poll reports the element absent (the
selector never matches). -/
def respsNever : Nat → Except String Env := fun _ => .ok envFalse

/-- Oracle: the first existence poll fails with a transport error, every
later poll finds the element. -/
def respsErrThenFound : Nat → Except String Env :=
  fun m => if m = 0 then .error "connection reset" else .ok envTrue

/-- Oracle: every existence poll yields a response whose JSON shape
lacks the nested boolean. -/
def respsBadShape : Nat → Except String Env := fun _ => .ok badShapeEnv

/-- A concrete mistake oracle (used to instantiate theorems). -/
def mistAlt : Nat → Bool := fun i => decide (i % 2 = 0)

/-- A concrete wrong-letter oracle (used to instantiate theorems). -/
def wrongThree : Nat → Fin 26 := fun _ => ⟨3, by omega⟩

/-- A concrete run of skippable frames: one unparseable frame, one
response for a different request, one identifierless protocol event. -/
def preSkip : List InFrame :=
  [InFrame.malformed, InFrame.parsed [("id", JValue.numv 3)],
   InFrame.parsed [("method", JValue.strv "Network.loadingFinished")]]

/-- A concrete response envelope for request identifier 7. -/
def envSeven : Env := [("id", JValue.numv 7), ("result", JValue.objv [])]

/-! Helper lemmas about the polling loop, the read loop, the identifier
counter and the replay interpreter.  These are shared infrastructure,
not claim theorems. -/

/-- Computation helper: a doubly-nested `true` response parses as found. -/
theorem elementExists_envTrue : elementExists (Except.ok envTrue) = (true, none) := rfl

/-- Computation helper: a doubly-nested `false` response parses as not
found, with no error. -/
theorem elementExists_envFalse : elementExists (Except.ok envFalse) = (false, none) := rfl

/-- Computation helper: the singly-nested response fails the existence
parse with the shape error. -/
theorem elementExists_badShape :
    elementExists (Except.ok badShapeEnv) = (false, some "unexpected response format") := rfl

/-- If the first poll finds the element, the loop ends immediately. -/
theorem waitFor_found_first (resps : Nat → Except String Env)
    (h : elementExists (resps 0) = (true, none)) :
    waitFor resps 0 0 = .found 0 0 := by
  rw [waitFor]
  simp [timeoutMs, h]

/-- The always-found oracle makes the loop succeed on the first poll. -/
theorem waitFor_respsFound : waitFor respsFound 0 0 = .found 0 0 :=
  waitFor_found_first respsFound rfl

/-- Fuel-indexed workhorse: under a never-found oracle the loop, started
at any elapsed time within one interval past the deadline, ends in
`timedOut` strictly after the deadline and at most one interval past it. -/
theorem waitFor_never_aux (resps : Nat → Except String Env)
    (h : NeverFound resps) :
    ∀ fuel t n, timeoutMs + 1 - t ≤ fuel → t ≤ timeoutMs + intervalMs →
      ∃ t', waitFor resps n t = .timedOut t' ∧ timeoutMs < t' ∧
        t' ≤ timeoutMs + intervalMs := by
  intro fuel
  induction fuel with
  | zero =>
    intro t n hf ht
    have h1 : timeoutMs < t := by omega
    refine ⟨t, ?_, h1, ht⟩
    rw [waitFor]
    simp [h1]
  | succ k ih =>
    intro t n hf ht
    by_cases hgt : t > timeoutMs
    · refine ⟨t, ?_, hgt, ht⟩
      rw [waitFor]
      simp [hgt]
    · have hstep : waitFor resps n t = waitFor resps (n + 1) (t + intervalMs) := by
        rw [waitFor]
        simp only [hgt, if_false]
        rcases hr : elementExists (resps n) with ⟨b, e⟩
        rcases e with _ | e
        · rcases b with _ | _
          · simp
          · exact absurd hr (h n)
        · simp
      rw [hstep]
      exact ih (t + intervalMs) (n + 1)
        (by simp only [timeoutMs, intervalMs] at *; omega)
        (by simp only [timeoutMs, intervalMs] at *; omega)

/-- Under a never-found oracle the loop started from zero ends in
`timedOut` strictly after the deadline, at most one interval past it. -/
theorem waitFor_never (resps : Nat → Except String Env) (h : NeverFound resps) :
    ∃ t', waitFor resps 0 0 = .timedOut t' ∧ timeoutMs < t' ∧
      t' ≤ timeoutMs + intervalMs :=
  waitFor_never_aux resps h (timeoutMs + 1) 0 0 (by omega) (by omega)

/-- If the polls before `k` all error and poll `k` finds the element
within the deadline, the loop ends in `found` at poll `k`. -/
theorem waitFor_skip (resps : Nat → Except String Env) :
    ∀ k n t, t + intervalMs * k ≤ timeoutMs →
      (∀ m, m < k → ((elementExists (resps (n + m))).2).isSome) →
      elementExists (resps (n + k)) = (true, none) →
      waitFor resps n t = .found (n + k) (t + intervalMs * k) := by
  intro k
  induction k with
  | zero =>
    intro n t ht _ hf
    simp only [Nat.mul_zero, Nat.add_zero] at ht hf ⊢
    have hgt : ¬ t > timeoutMs := by omega
    rw [waitFor]
    simp [hgt, hf]
  | succ k ih =>
    intro n t ht herr hf
    have hgt : ¬ t > timeoutMs := by
      simp only [timeoutMs, intervalMs] at ht ⊢
      omega
    have h0 := herr 0 (Nat.succ_pos k)
    simp only [Nat.add_zero] at h0
    have hstep : waitFor resps n t = waitFor resps (n + 1) (t + intervalMs) := by
      rw [waitFor]
      simp only [hgt, if_false]
      rcases hr : elementExists (resps n) with ⟨b, e⟩
      rw [hr] at h0
      rcases e with _ | e
      · simp at h0
      · simp
    rw [hstep]
    have herr' : ∀ m, m < k → ((elementExists (resps (n + 1 + m))).2).isSome := by
      intro m hm
      have h2 := herr (m + 1) (by omega)
      rwa [show n + (m + 1) = n + 1 + m by omega] at h2
    have hf' : elementExists (resps (n + 1 + k)) = (true, none) := by
      rwa [show n + (k + 1) = n + 1 + k by omega] at hf
    have ht' : t + intervalMs + intervalMs * k ≤ timeoutMs := by
      simp only [timeoutMs, intervalMs] at ht ⊢
      omega
    have hres := ih (n + 1) (t + intervalMs) ht' herr' hf'
    rw [hres]
    have e1 : n + 1 + k = n + (k + 1) := by omega
    have e2 : t + intervalMs + intervalMs * k = t + intervalMs * (k + 1) := by
      simp only [intervalMs]
      omega
    rw [e1, e2]

/-- Fuel-indexed totality: every run of the polling loop ends, either in
`found` within the deadline or in `timedOut` strictly after it. -/
theorem waitFor_total_aux (resps : Nat → Except String Env) :
    ∀ fuel t n, timeoutMs + 1 - t ≤ fuel →
      (∃ n' t', waitFor resps n t = .found n' t' ∧ t' ≤ timeoutMs) ∨
      (∃ t', waitFor resps n t = .timedOut t' ∧ timeoutMs < t') := by
  intro fuel
  induction fuel with
  | zero =>
    intro t n hf
    have h1 : timeoutMs < t := by omega
    refine Or.inr ⟨t, ?_, h1⟩
    rw [waitFor]
    simp [h1]
  | succ k ih =>
    intro t n hf
    by_cases hgt : t > timeoutMs
    · refine Or.inr ⟨t, ?_, hgt⟩
      rw [waitFor]
      simp [hgt]
    · rcases hr : elementExists (resps n) with ⟨b, e⟩
      rcases e with _ | e
      · rcases b with _ | _
        · have hstep : waitFor resps n t = waitFor resps (n + 1) (t + intervalMs) := by
            rw [waitFor]
            simp only [hgt, if_false]
            simp [hr]
          rw [hstep]
          exact ih (t + intervalMs) (n + 1)
            (by simp only [timeoutMs, intervalMs] at *; omega)
        · refine Or.inl ⟨n, t, ?_, by omega⟩
          rw [waitFor]
          simp [hgt, hr]
      · have hstep : waitFor resps n t = waitFor resps (n + 1) (t + intervalMs) := by
          rw [waitFor]
          simp only [hgt, if_false]
          simp [hr]
        rw [hstep]
        exact ih (t + intervalMs) (n + 1)
          (by simp only [timeoutMs, intervalMs] at *; omega)

/-- The read loop passes over any run of skippable frames. -/
theorem readLoop_skip (id : Nat) :
    ∀ pre rest, (∀ f ∈ pre, Skippable id f) →
      readLoop id (pre ++ rest) = readLoop id rest := by
  intro pre
  induction pre with
  | nil => intro rest _; rfl
  | cons f fs ih =>
    intro rest hpre
    have hf := hpre f (List.mem_cons_self f fs)
    have hfs : ∀ g ∈ fs, Skippable id g := fun g hg => hpre g (List.mem_cons_of_mem f hg)
    cases f with
    | malformed =>
      simpa [readLoop] using ih rest hfs
    | parsed env =>
      simp only [Skippable] at hf
      simp only [List.cons_append, readLoop]
      rcases he : envId env with _ | i
      · exact ih rest hfs
      · have hne : ¬ i = (id : Int) := by
          intro hcon
          exact hf (by rw [he, hcon])
        simp only [hne, if_false]
        exact ih rest hfs
    | readFail m =>
      simp only [Skippable] at hf

/-- The identifiers a serialized operation sequence allocates are the
consecutive integers starting right after the initial counter value, and
the final counter is the initial one plus the number of allocations. -/
theorem runOps_spec : ∀ (ops : List BOp) (m : Nat),
    (runOps m ops).2 = List.range' (m + 1) (ops.countP BOp.allocates) ∧
    (runOps m ops).1 = m + ops.countP BOp.allocates := by
  intro ops
  induction ops with
  | nil => intro m; simp [runOps]
  | cons op ops ih =>
    intro m
    cases op with
    | reconnect =>
      have h := ih m
      have hc : List.countP BOp.allocates (BOp.reconnect :: ops) =
          List.countP BOp.allocates ops := by
        simp [List.countP_cons, BOp.allocates]
      simp [runOps, hc, h.1, h.2]
    | sendWithResp =>
      have h := ih (m + 1)
      have hc : List.countP BOp.allocates (BOp.sendWithResp :: ops) =
          List.countP BOp.allocates ops + 1 := by
        simp [List.countP_cons, BOp.allocates]
      simp only [runOps, hc, h.1, h.2]
      refine ⟨?_, by omega⟩
      rw [List.range'_succ]
    | sendWithoutResp =>
      have h := ih (m + 1)
      have hc : List.countP BOp.allocates (BOp.sendWithoutResp :: ops) =
          List.countP BOp.allocates ops + 1 := by
        simp [List.countP_cons, BOp.allocates]
      simp only [runOps, hc, h.1, h.2]
      refine ⟨?_, by omega⟩
      rw [List.range'_succ]

/-- Interleaving a reconnection anywhere in an operation sequence
changes neither the allocated identifiers nor the final counter. -/
theorem runOps_reconnect : ∀ (ops1 ops2 : List BOp) (m : Nat),
    runOps m (ops1 ++ BOp.reconnect :: ops2) = runOps m (ops1 ++ ops2) := by
  intro ops1
  induction ops1 with
  | nil => intro ops2 m; simp [runOps]
  | cons op ops ih =>
    intro ops2 m
    cases op <;> simp [runOps, ih]

/-- Replay of a text insertion appends its text to the buffer. -/
theorem replayStep_insertText (buf : List Char) (s : String) :
    replayStep buf (insertTextCmd s) = buf ++ s.toList := rfl

/-- Replay of the corrective backspace key event deletes the last
buffer character. -/
theorem replayStep_twmBackspace (buf : List Char) :
    replayStep buf twmBackspaceCmd = buf.dropLast := rfl

/-- Replay of the focus command leaves the buffer unchanged. -/
theorem replayStep_focus (buf : List Char) (sel : String) :
    replayStep buf (focusCmd sel) = buf := rfl

/-- Replaying the per-character emission of `TypeWithMistakes` from any
position appends exactly the intended characters: every mistaken
insertion is cancelled by its corrective backspace. -/
theorem replay_twmChars (wrong : Nat → Fin 26) (mist : Nat → Bool) :
    ∀ (cs : List Char) (i : Nat) (buf : List Char),
      replay (twmChars wrong mist cs i) buf = buf ++ cs := by
  intro cs
  induction cs with
  | nil => intro i buf; simp [twmChars, replay]
  | cons c cs ih =>
    intro i buf
    by_cases hm : mist i
    · simp only [twmChars, hm, if_true, List.cons_append, List.nil_append]
      show replay (insertTextCmd (String.singleton (wrongChar (wrong i))) ::
        twmBackspaceCmd :: insertTextCmd (String.singleton c) ::
        twmChars wrong mist cs (i + 1)) buf = buf ++ c :: cs
      show replay (twmChars wrong mist cs (i + 1))
        (replayStep (replayStep (replayStep buf
          (insertTextCmd (String.singleton (wrongChar (wrong i)))))
          twmBackspaceCmd) (insertTextCmd (String.singleton c))) = buf ++ c :: cs
      rw [replayStep_insertText, replayStep_twmBackspace, replayStep_insertText,
        show (String.singleton (wrongChar (wrong i))).toList = [wrongChar (wrong i)] from rfl,
        show (String.singleton c).toList = [c] from rfl,
        List.dropLast_concat, ih (i + 1) (buf ++ [c])]
      simp
    · simp only [twmChars, hm, if_false, List.nil_append]
      show replay (twmChars wrong mist cs (i + 1))
        (replayStep buf (insertTextCmd (String.singleton c))) = buf ++ c :: cs
      rw [replayStep_insertText,
        show (String.singleton c).toList = [c] from rfl, ih (i + 1) (buf ++ [c])]
      simp

/-- The mistaken character is always a lowercase ASCII letter. -/
theorem wrongChar_lowercase :
    ∀ k : Fin 26, 97 ≤ (wrongChar k).toNat ∧ (wrongChar k).toNat ≤ 122 := by
  decide

/-- The always-false oracle is a never-found oracle. -/
theorem respsNever_neverFound : NeverFound respsNever := by
  intro m
  rw [show respsNever m = Except.ok envFalse from rfl, elementExists_envFalse]
  simp

/-- The without-response send path always allocates counter + 1. -/
theorem sendWithout_allocatedId (s : TState) (a : Option ConnSt) (mth : String)
    (p : JValue) :
    (SendCommandWithoutResponse s a mth p).allocatedId = s.messageID + 1 := by
  simp only [SendCommandWithoutResponse]
  split
  · split
    · rfl
    · split <;> rfl
  · split <;> rfl

/-- The without-response send path always advances the counter by one,
whether or not the call fails. -/
theorem sendWithout_counter (s : TState) (a : Option ConnSt) (mth : String)
    (p : JValue) :
    (SendCommandWithoutResponse s a mth p).state.messageID = s.messageID + 1 := by
  simp only [SendCommandWithoutResponse]
  split
  · split
    · rfl
    · split <;> rfl
  · split <;> rfl

/-- Any envelope the without-response send path writes carries exactly
the allocated identifier, counter + 1. -/
theorem sendWithout_writtenId (s : TState) (a : Option ConnSt) (mth : String)
    (p : JValue) :
    writtenId (SendCommandWithoutResponse s a mth p).result = none ∨
    writtenId (SendCommandWithoutResponse s a mth p).result = some (s.messageID + 1) := by
  simp only [SendCommandWithoutResponse]
  split
  · split
    · exact Or.inl rfl
    · split
      · exact Or.inl rfl
      · exact Or.inr rfl
  · split
    · exact Or.inl rfl
    · exact Or.inr rfl

/-- With a nil connection, the without-response path attempts exactly
one reconnection. -/
theorem sendWithout_attachCount_nil (s : TState) (a : Option ConnSt) (mth : String)
    (p : JValue) (h : s.conn = none) :
    (SendCommandWithoutResponse s a mth p).attachCount = 1 := by
  simp only [SendCommandWithoutResponse, h]
  split
  · rfl
  · split <;> rfl

/-- The with-response send path always allocates counter + 1. -/
theorem sendWith_allocatedId (s : TState) (a : Option ConnSt) (fr : List InFrame)
    (mth : String) (p : JValue) :
    (SendCommandWithResponse s a fr mth p).allocatedId = s.messageID + 1 := by
  simp only [SendCommandWithResponse]
  split <;> exact sendWithout_allocatedId s a mth p

/-- The with-response send path always advances the counter by one. -/
theorem sendWith_counter (s : TState) (a : Option ConnSt) (fr : List InFrame)
    (mth : String) (p : JValue) :
    (SendCommandWithResponse s a fr mth p).state.messageID = s.messageID + 1 := by
  simp only [SendCommandWithResponse]
  split <;> exact sendWithout_counter s a mth p

/-- With a nil connection, the with-response path attempts exactly one
reconnection. -/
theorem sendWith_attachCount_nil (s : TState) (a : Option ConnSt) (fr : List InFrame)
    (mth : String) (p : JValue) (h : s.conn = none) :
    (SendCommandWithResponse s a fr mth p).attachCount = 1 := by
  simp only [SendCommandWithResponse]
  split <;> exact sendWithout_attachCount_nil s a mth p h

/-- Fill's outcome when the polling loop times out. -/
theorem Fill_timedOut (sel v : String) (resps : Nat → Except String Env) (t' : Nat)
    (ht : waitFor resps 0 0 = .timedOut t') :
    Fill sel v resps = (.fatal (LocatorTimeoutMsg sel), []) := by
  simp [Fill, ht]

/-- Click's outcome when the polling loop times out. -/
theorem Click_timedOut (sel : String) (resps : Nat → Except String Env)
    (clickErr : Option String) (t' : Nat)
    (ht : waitFor resps 0 0 = .timedOut t') :
    Click sel resps clickErr = (.fatal (LocatorTimeoutMsg sel), []) := by
  simp [Click, ht]

/-- TypeSequentially's outcome when the polling loop times out. -/
theorem TypeSequentially_timedOut (sel text : String) (delayMs : Nat)
    (resps : Nat → Except String Env) (t' : Nat)
    (ht : waitFor resps 0 0 = .timedOut t') :
    TypeSequentially sel text delayMs resps = (.fatal (LocatorTimeoutMsg sel), []) := by
  simp [TypeSequentially, ht]

/-- TypeWithMistakes' outcome when the polling loop times out. -/
theorem TypeWithMistakes_timedOut (sel text : String) (delayMs : Nat)
    (resps : Nat → Except String Env) (mist : Nat → Bool) (wrong : Nat → Fin 26)
    (t' : Nat) (ht : waitFor resps 0 0 = .timedOut t') :
    TypeWithMistakes sel text delayMs resps mist wrong =
      (.fatal (LocatorTimeoutMsg sel), []) := by
  simp [TypeWithMistakes, ht]

/-- InnerText's outcome when the polling loop times out. -/
theorem InnerText_timedOut (sel : String) (resps : Nat → Except String Env)
    (actResp : Except String Env) (t' : Nat)
    (ht : waitFor resps 0 0 = .timedOut t') :
    InnerText sel resps actResp = (.fatal (LocatorTimeoutMsg sel), []) := by
  simp [InnerText, ht]

/-! Claim theorems. -/

/-- Claim C1, counterexample: for the never-matching selector
"#missing", `Fill` does not signal the timeout to the caller as a typed
failure — its outcome is the `log.Fatalf` process abort carrying the
timeout message, and `Outcome.isTypedFailure` is false on it. -/
theorem C1_counterexample :
    (Fill "#missing" "v" respsNever).1 = Outcome.fatal (LocatorTimeoutMsg "#missing") ∧
    Outcome.isTypedFailure (Fill "#missing" "v" respsNever).1 = false := by
  obtain ⟨t', ht, _, _⟩ := waitFor_never respsNever respsNever_neverFound
  rw [Fill_timedOut "#missing" "v" respsNever t' ht]
  exact ⟨rfl, rfl⟩

/-- Claim C1 (amended): for every Locator operation (Fill, Click,
TypeSequentially, TypeWithMistakes, InnerText) and every selector that
never matches any element, the operation terminates once the polling
loop's elapsed time exceeds the 30-second deadline — strictly after the
deadline and no later than the deadline plus one 350 ms poll interval,
idealizing polls as instantaneous — by a fatal `log.Fatalf` process
abort whose message names the selector (not by returning a value, and
not by a typed error returned to the caller). -/
theorem C1_timeout_abort (sel v text : String) (delayMs : Nat)
    (resps : Nat → Except String Env) (clickErr : Option String)
    (actResp : Except String Env) (mist : Nat → Bool) (wrong : Nat → Fin 26)
    (h : NeverFound resps) :
    ∃ t', waitFor resps 0 0 = .timedOut t' ∧ timeoutMs < t' ∧
      t' ≤ timeoutMs + intervalMs ∧
      Fill sel v resps = (.fatal (LocatorTimeoutMsg sel), []) ∧
      Click sel resps clickErr = (.fatal (LocatorTimeoutMsg sel), []) ∧
      TypeSequentially sel text delayMs resps = (.fatal (LocatorTimeoutMsg sel), []) ∧
      TypeWithMistakes sel text delayMs resps mist wrong =
        (.fatal (LocatorTimeoutMsg sel), []) ∧
      InnerText sel resps actResp = (.fatal (LocatorTimeoutMsg sel), []) := by
  obtain ⟨t', ht, h1, h2⟩ := waitFor_never resps h
  exact ⟨t', ht, h1, h2, Fill_timedOut sel v resps t' ht,
    Click_timedOut sel resps clickErr t' ht,
    TypeSequentially_timedOut sel text delayMs resps t' ht,
    TypeWithMistakes_timedOut sel text delayMs resps mist wrong t' ht,
    InnerText_timedOut sel resps actResp t' ht⟩

/-- Witness for C1: the concrete never-matching oracle satisfies the
hypothesis and every operation aborts within the stated window. -/
theorem C1_witness :
    NeverFound respsNever ∧
    (∃ t', waitFor respsNever 0 0 = .timedOut t' ∧ timeoutMs < t' ∧
      t' ≤ timeoutMs + intervalMs ∧
      Fill "#a" "v" respsNever = (.fatal (LocatorTimeoutMsg "#a"), []) ∧
      Click "#a" respsNever none = (.fatal (LocatorTimeoutMsg "#a"), []) ∧
      TypeSequentially "#a" "hi" 5 respsNever = (.fatal (LocatorTimeoutMsg "#a"), []) ∧
      TypeWithMistakes "#a" "hi" 5 respsNever mistAlt wrongThree =
        (.fatal (LocatorTimeoutMsg "#a"), []) ∧
      InnerText "#a" respsNever (.ok evalEnvelope) =
        (.fatal (LocatorTimeoutMsg "#a"), [])) :=
  ⟨respsNever_neverFound,
   C1_timeout_abort "#a" "v" "hi" 5 respsNever none (.ok evalEnvelope)
     mistAlt wrongThree respsNever_neverFound⟩

/-- Claim C2 (code bug): `InnerText`'s response parsing reads the
singly-nested `response["result"]["value"]`, so on the well-formed
doubly-nested evaluate envelope `{id, result: {result: {value:
"hello"}}}` — the inbound shape the spec specifies for evaluate-style
calls and the shape `elementExists` itself parses — the extraction
fails and the operation aborts fatally instead of returning "hello";
the string is returned only for the singly-nested shape. -/
theorem C2_innerText_shape_bug :
    innerTextExtract evalEnvelope = none ∧
    specEvalStringValue evalEnvelope = some "hello" ∧
    innerTextExtract singleEnvelope = some "hello" ∧
    (InnerText "#el" respsFound (Except.ok evalEnvelope)).1 =
      Outcome.fatal "Unexpected response format for inner text" ∧
    (InnerText "#el" respsFound (Except.ok evalEnvelope)).1 ≠ Outcome.value "hello" := by
  have h4 : (InnerText "#el" respsFound (Except.ok evalEnvelope)).1 =
      Outcome.fatal "Unexpected response format for inner text" := by
    simp only [InnerText, waitFor_respsFound]
    rfl
  exact ⟨rfl, rfl, rfl, h4, by rw [h4]; simp⟩

/-- Claim C3 (confirmed): the response-returning send path returns
exactly the first inbound frame whose identifier equals the identifier
allocated for the call; frames with a non-matching or absent identifier
and frames that fail to parse are skipped without failing the call; the
wait errors only at a hard read failure; and the identifier the read
loop matches against is the one allocated for this call. -/
theorem C3_response_correlation (id : Nat) (pre rest rest2 frames frames2 : List InFrame)
    (env : Env) (e : String) (s : TState) (c : ConnSt) (a : Option ConnSt)
    (mth : String) (p : JValue)
    (hpre : ∀ f ∈ pre, Skippable id f)
    (hid : envId env = some (id : Int))
    (hall : ∀ f ∈ frames, Skippable id f)
    (hconn : s.conn = some c) (hw : c.writeFails = false) :
    readLoop id (pre ++ InFrame.parsed env :: rest) = some (Except.ok env) ∧
    readLoop id (pre ++ InFrame.readFail e :: rest2) =
      some (Except.error ("failed to read WebSocket message: " ++ e)) ∧
    readLoop id frames = none ∧
    (SendCommandWithResponse s a frames2 mth p).result =
      readLoop (s.messageID + 1) frames2 := by
  refine ⟨?_, ?_, ?_, ?_⟩
  · rw [readLoop_skip id pre _ hpre]
    simp [readLoop, hid]
  · rw [readLoop_skip id pre _ hpre]
    rfl
  · rw [← List.append_nil frames, readLoop_skip id frames _ hall]
    rfl
  · rcases s with ⟨mid, conn⟩
    simp only at hconn
    subst hconn
    simp [SendCommandWithResponse, SendCommandWithoutResponse, hw]

/-- Witness for C3: a concrete run of skippable frames before the
matching response, before a hard read failure, and alone. -/
theorem C3_witness :
    (∀ f ∈ preSkip, Skippable 7 f) ∧
    envId envSeven = some ((7 : Nat) : Int) ∧
    (readLoop 7 (preSkip ++ InFrame.parsed envSeven :: []) = some (Except.ok envSeven) ∧
     readLoop 7 (preSkip ++ InFrame.readFail "boom" :: []) =
       some (Except.error ("failed to read WebSocket message: " ++ "boom")) ∧
     readLoop 7 [InFrame.malformed] = none ∧
     (SendCommandWithResponse ⟨0, some ⟨false⟩⟩ none [InFrame.parsed envSeven]
       "Runtime.evaluate" JValue.nullv).result =
       readLoop ((⟨0, some ⟨false⟩⟩ : TState).messageID + 1) [InFrame.parsed envSeven]) := by
  have hpre : ∀ f ∈ preSkip, Skippable 7 f := by
    intro f hf
    simp only [preSkip, List.mem_cons, List.not_mem_nil, or_false] at hf
    rcases hf with rfl | rfl | rfl
    · trivial
    · show envId [("id", JValue.numv 3)] ≠ some ((7 : Nat) : Int)
      decide
    · show envId [("method", JValue.strv "Network.loadingFinished")] ≠ some ((7 : Nat) : Int)
      decide
  have hall : ∀ f ∈ [InFrame.malformed], Skippable 7 f := by
    intro f hf
    simp only [List.mem_singleton] at hf
    subst hf
    trivial
  exact ⟨hpre, rfl,
    C3_response_correlation 7 preSkip [] [] [InFrame.malformed] [InFrame.parsed envSeven]
      envSeven "boom" ⟨0, some ⟨false⟩⟩ ⟨false⟩ none "Runtime.evaluate" JValue.nullv
      hpre rfl hall rfl rfl⟩

/-- Claim C4 (confirmed): under the mutex every interleaving of
concurrent send calls is a serialized operation sequence; each call
receives a distinct identifier, the allocated identifiers are strictly
increasing (the consecutive integers after the initial counter value),
a reconnection interleaved anywhere changes nothing (the counter is not
reset), and both send paths allocate exactly counter + 1. -/
theorem C4_identifier_allocation (m : Nat) (ops ops1 ops2 : List BOp)
    (s : TState) (a : Option ConnSt) (fr : List InFrame) (mth : String) (p : JValue) :
    (runOps m ops).2 = List.range' (m + 1) (ops.countP BOp.allocates) ∧
    List.Chain' (· < ·) (runOps m ops).2 ∧
    ((runOps m ops).2).Nodup ∧
    (runOps m ops).1 = m + ops.countP BOp.allocates ∧
    runOps m (ops1 ++ BOp.reconnect :: ops2) = runOps m (ops1 ++ ops2) ∧
    (SendCommandWithoutResponse s a mth p).allocatedId = s.messageID + 1 ∧
    (SendCommandWithResponse s a fr mth p).allocatedId = s.messageID + 1 := by
  have h := runOps_spec ops m
  refine ⟨h.1, ?_, ?_, h.2, runOps_reconnect ops1 ops2 m, ?_, ?_⟩
  · rw [h.1]
    exact (List.pairwise_lt_range' _ _).chain'
  · rw [h.1]
    exact List.nodup_range' _ _
  · exact sendWithout_allocatedId s a mth p
  · exact sendWith_allocatedId s a fr mth p

/-- Claim C5, counterexample: with a connection that is closed but
still present (the Go code closes the socket without nil-ing the
pointer, so `conn != nil` and writes fail), a new command attempts zero
reconnections — even though a reconnection would succeed — and fails
with the write error instead of succeeding. -/
theorem C5_counterexample :
    (SendCommandWithoutResponse ⟨5, some ⟨true⟩⟩ (some ⟨false⟩) "Page.navigate"
      (JValue.objv [("url", JValue.strv "http://example.com")])) =
      ⟨⟨6, some ⟨true⟩⟩, 6, 0, .err "failed to send WebSocket message"⟩ ∧
    (SendCommandWithResponse ⟨5, some ⟨true⟩⟩ (some ⟨false⟩) [] "Runtime.evaluate"
      JValue.nullv).attachCount = 0 ∧
    (SendCommandWithResponse ⟨5, some ⟨true⟩⟩ (some ⟨false⟩) [] "Runtime.evaluate"
      JValue.nullv).result = some (Except.error "failed to send WebSocket message") :=
  ⟨rfl, rfl, rfl⟩

/-- Claim C5 (amended): if no connection exists (the connection
reference is nil) when a command is issued through either send path,
exactly one reconnection is attempted before the write, transparently to
the caller; if the reconnection fails the call fails with an error, and
if it succeeds (and the fresh socket accepts the write) the command is
written without the caller re-initiating anything.  A closed but still
present connection triggers no reconnection — the write simply fails. -/
theorem C5_reconnect_on_nil (s : TState) (a : Option ConnSt) (fr : List InFrame)
    (mth : String) (p : JValue) (h : s.conn = none) :
    (SendCommandWithoutResponse s a mth p).attachCount = 1 ∧
    (SendCommandWithResponse s a fr mth p).attachCount = 1 ∧
    (SendCommandWithoutResponse s none mth p).result =
      .err "failed to reconnect WebSocket" ∧
    (SendCommandWithResponse s none fr mth p).result =
      some (Except.error "failed to reconnect WebSocket") ∧
    (SendCommandWithoutResponse s (some ⟨false⟩) mth p).result =
      .ok ⟨s.messageID + 1, mth, p⟩ := by
  refine ⟨sendWithout_attachCount_nil s a mth p h,
    sendWith_attachCount_nil s a fr mth p h, ?_, ?_, ?_⟩
  all_goals rcases s with ⟨mid, conn⟩
  all_goals simp only at h
  all_goals subst h
  all_goals rfl

/-- Witness for C5: a nil-connection state with a succeeding
reconnection oracle. -/
theorem C5_witness :
    (⟨9, none⟩ : TState).conn = none ∧
    ((SendCommandWithoutResponse ⟨9, none⟩ (some ⟨false⟩) "Page.enable"
        JValue.nullv).attachCount = 1 ∧
     (SendCommandWithResponse ⟨9, none⟩ (some ⟨false⟩) [] "Page.enable"
        JValue.nullv).attachCount = 1 ∧
     (SendCommandWithoutResponse ⟨9, none⟩ none "Page.enable" JValue.nullv).result =
       .err "failed to reconnect WebSocket" ∧
     (SendCommandWithResponse ⟨9, none⟩ none [] "Page.enable" JValue.nullv).result =
       some (Except.error "failed to reconnect WebSocket") ∧
     (SendCommandWithoutResponse ⟨9, none⟩ (some ⟨false⟩) "Page.enable"
        JValue.nullv).result = .ok ⟨9 + 1, "Page.enable", JValue.nullv⟩) :=
  ⟨rfl, C5_reconnect_on_nil ⟨9, none⟩ (some ⟨false⟩) [] "Page.enable" JValue.nullv rfl⟩

/-- Claim C6 (confirmed): for every input text and every outcome of the
random source (the mistake decision `mist i` embedding
`rand.Float32() < 0.4` and the letter draw `wrong i` embedding
`rand.Int31n(26)`), once the selector exists `TypeWithMistakes` emits,
for each character, an optional mistaken insertion of a lowercase letter
(a–z) followed by exactly one backspace before the intended character's
insertion, and replaying the emitted insertion and backspace events,
in order, against an empty buffer yields exactly the intended text. -/
theorem C6_type_with_mistakes_replay (sel text : String) (delayMs n t : Nat)
    (resps : Nat → Except String Env) (mist : Nat → Bool) (wrong : Nat → Fin 26)
    (h : waitFor resps 0 0 = .found n t) :
    (TypeWithMistakes sel text delayMs resps mist wrong).1 = .value () ∧
    (TypeWithMistakes sel text delayMs resps mist wrong).2 =
      focusCmd sel :: twmChars wrong mist text.toList 0 ∧
    replay (TypeWithMistakes sel text delayMs resps mist wrong).2 [] = text.toList ∧
    (∀ i, 97 ≤ (wrongChar (wrong i)).toNat ∧ (wrongChar (wrong i)).toNat ≤ 122) := by
  have h2 : TypeWithMistakes sel text delayMs resps mist wrong =
      (.value (), focusCmd sel :: twmChars wrong mist text.toList 0) := by
    simp [TypeWithMistakes, h]
  refine ⟨by rw [h2], by rw [h2], ?_, fun i => wrongChar_lowercase (wrong i)⟩
  rw [h2]
  show replay (twmChars wrong mist text.toList 0) (replayStep [] (focusCmd sel)) =
    text.toList
  rw [replayStep_focus, replay_twmChars]
  simp

/-- Witness for C6: a found-on-first-poll oracle with concrete mistake
and letter oracles and the text "hi". -/
theorem C6_witness :
    waitFor respsFound 0 0 = WaitResult.found 0 0 ∧
    ((TypeWithMistakes "#in" "hi" 5 respsFound mistAlt wrongThree).1 = .value () ∧
     (TypeWithMistakes "#in" "hi" 5 respsFound mistAlt wrongThree).2 =
       focusCmd "#in" :: twmChars wrongThree mistAlt "hi".toList 0 ∧
     replay (TypeWithMistakes "#in" "hi" 5 respsFound mistAlt wrongThree).2 [] =
       "hi".toList ∧
     (∀ i, 97 ≤ (wrongChar (wrongThree i)).toNat ∧
       (wrongChar (wrongThree i)).toNat ≤ 122)) :=
  ⟨waitFor_respsFound,
   C6_type_with_mistakes_replay "#in" "hi" 5 0 0 respsFound mistAlt wrongThree
     waitFor_respsFound⟩

/-- Claim C7 (confirmed): once the polling loop confirms the selector
exists, `Fill` issues exactly the sequence focus evaluation, select-all
key chord (keyDown of "a" with a modifier), backspace key event, and a
single `Input.insertText` carrying the entire replacement value, in this
order and exactly once; the value is not split into per-character
insertions. -/
theorem C7_fill_commands (sel v : String) (n t : Nat)
    (resps : Nat → Except String Env) (h : waitFor resps 0 0 = .found n t) :
    Fill sel v resps =
      (.value (), [focusCmd sel, selectAllCmd, fillBackspaceCmd, insertTextCmd v]) ∧
    ((Fill sel v resps).2.countP (fun c => c.method == "Input.insertText")) = 1 ∧
    paramStr (insertTextCmd v) "text" = some v := by
  have h2 : Fill sel v resps =
      (.value (), [focusCmd sel, selectAllCmd, fillBackspaceCmd, insertTextCmd v]) := by
    simp [Fill, h]
  refine ⟨h2, ?_, rfl⟩
  rw [h2]
  rfl

/-- Witness for C7: the found-on-first-poll oracle with a two-character
replacement value. -/
theorem C7_witness :
    waitFor respsFound 0 0 = WaitResult.found 0 0 ∧
    (Fill "#user" "ab" respsFound =
      (.value (), [focusCmd "#user", selectAllCmd, fillBackspaceCmd,
        insertTextCmd "ab"]) ∧
     ((Fill "#user" "ab" respsFound).2.countP
       (fun c => c.method == "Input.insertText")) = 1 ∧
     paramStr (insertTextCmd "ab") "text" = some "ab") :=
  ⟨waitFor_respsFound, C7_fill_commands "#user" "ab" 0 0 respsFound waitFor_respsFound⟩

/-- Claim C8 (confirmed): a transport error returned by an existence
poll before the deadline does not abort the operation — the loop sleeps
one interval and retries, so with errors on every poll before `k` and
success at poll `k` within the deadline the loop ends in `found` at poll
`k`, and in general every run of the loop ends either in `found` within
the deadline or in the deadline-expiry failure, never in an early
failure. -/
theorem C8_transient_poll_errors (sel v : String) (k : Nat)
    (resps : Nat → Except String Env)
    (hk : intervalMs * k ≤ timeoutMs)
    (herr : ∀ m, m < k → ((elementExists (resps m)).2).isSome)
    (hfound : elementExists (resps k) = (true, none)) :
    waitFor resps 0 0 = .found k (intervalMs * k) ∧
    (Fill sel v resps).1 = .value () ∧
    (∀ resps2 : Nat → Except String Env,
      (∃ n' t', waitFor resps2 0 0 = .found n' t' ∧ t' ≤ timeoutMs) ∨
      (∃ t', waitFor resps2 0 0 = .timedOut t' ∧ timeoutMs < t')) := by
  have hw : waitFor resps 0 0 = .found k (intervalMs * k) := by
    have h := waitFor_skip resps k 0 0 (by omega)
      (by intro m hm; simpa using herr m hm) (by simpa using hfound)
    simpa using h
  refine ⟨hw, ?_, fun resps2 => waitFor_total_aux resps2 (timeoutMs + 1) 0 0 (by omega)⟩
  simp [Fill, hw]

/-- Witness for C8: a transport error on the first poll, success on the
second. -/
theorem C8_witness :
    intervalMs * 1 ≤ timeoutMs ∧
    (∀ m, m < 1 → ((elementExists (respsErrThenFound m)).2).isSome) ∧
    elementExists (respsErrThenFound 1) = (true, none) ∧
    (waitFor respsErrThenFound 0 0 = .found 1 (intervalMs * 1) ∧
     (Fill "#btn" "x" respsErrThenFound).1 = .value () ∧
     (∀ resps2 : Nat → Except String Env,
       (∃ n' t', waitFor resps2 0 0 = .found n' t' ∧ t' ≤ timeoutMs) ∨
       (∃ t', waitFor resps2 0 0 = .timedOut t' ∧ timeoutMs < t'))) := by
  have herr : ∀ m, m < 1 → ((elementExists (respsErrThenFound m)).2).isSome := by
    intro m hm
    have hm0 : m = 0 := Nat.lt_one_iff.mp hm
    subst hm0
    rfl
  exact ⟨by decide, herr, rfl,
    C8_transient_poll_errors "#btn" "x" 1 respsErrThenFound (by decide) herr rfl⟩

/-- Claim C9 (confirmed): in both send paths the identifier is allocated
(counter incremented by exactly one under the mutex) before the
connection check and the write, so the first envelope ever written
carries identifier 1; a call whose reconnection or write fails still
consumes its identifier — the counter advances on error, leaving gaps in
the identifiers that appear on the wire. -/
theorem C9_allocation_precedes_io (s : TState) (a : Option ConnSt)
    (fr : List InFrame) (mth : String) (p : JValue) (k : Nat) :
    (SendCommandWithoutResponse s a mth p).allocatedId = s.messageID + 1 ∧
    (SendCommandWithoutResponse s a mth p).state.messageID = s.messageID + 1 ∧
    (writtenId (SendCommandWithoutResponse s a mth p).result = none ∨
     writtenId (SendCommandWithoutResponse s a mth p).result = some (s.messageID + 1)) ∧
    (SendCommandWithResponse s a fr mth p).allocatedId = s.messageID + 1 ∧
    (SendCommandWithResponse s a fr mth p).state.messageID = s.messageID + 1 ∧
    writtenId (SendCommandWithoutResponse ⟨0, some ⟨false⟩⟩ a mth p).result = some 1 ∧
    (SendCommandWithoutResponse ⟨k, none⟩ none mth p).result =
      .err "failed to reconnect WebSocket" ∧
    (SendCommandWithoutResponse ⟨k, none⟩ none mth p).state.messageID = k + 1 :=
  ⟨sendWithout_allocatedId s a mth p, sendWithout_counter s a mth p,
   sendWithout_writtenId s a mth p, sendWith_allocatedId s a fr mth p,
   sendWith_counter s a fr mth p, rfl, rfl, rfl⟩

/-- Claim C10 (confirmed): an existence-check response that parses as
JSON but lacks the expected nested boolean makes `elementExists` return
false together with an error — a success result never carries an error —
and every polling loop treats that error exactly like a transport error
(sleep one interval and retry), so persistently malformed existence
responses end in the timeout failure, never in an immediate
response-shape failure. -/
theorem C10_malformed_existence_retried (sel v : String)
    (resps : Nat → Except String Env) (actResp : Except String Env)
    (ce : Option String)
    (hbad : ∀ m, ∃ env, resps m = Except.ok env ∧ ((elementExistsParse env).2).isSome) :
    (∀ env2 : Env,
      elementExistsParse env2 = (false, some "unexpected response format") ∨
      ∃ b, elementExistsParse env2 = (b, none)) ∧
    (∀ m, (elementExists (resps m)).1 = false ∧ ((elementExists (resps m)).2).isSome) ∧
    (∃ t', waitFor resps 0 0 = .timedOut t' ∧ timeoutMs < t' ∧
      t' ≤ timeoutMs + intervalMs) ∧
    (Fill sel v resps).1 = .fatal (LocatorTimeoutMsg sel) ∧
    (Click sel resps ce).1 = .fatal (LocatorTimeoutMsg sel) ∧
    (InnerText sel resps actResp).1 = .fatal (LocatorTimeoutMsg sel) := by
  have hshape : ∀ env2 : Env,
      elementExistsParse env2 = (false, some "unexpected response format") ∨
      ∃ b, elementExistsParse env2 = (b, none) := by
    intro env2
    unfold elementExistsParse
    split
    · split
      · split
        · exact Or.inr ⟨_, rfl⟩
        · exact Or.inl rfl
      · exact Or.inl rfl
    · exact Or.inl rfl
  have hexists : ∀ m, (elementExists (resps m)).1 = false ∧
      ((elementExists (resps m)).2).isSome := by
    intro m
    obtain ⟨env, hm, hs⟩ := hbad m
    rw [hm]
    show (elementExistsParse env).1 = false ∧ ((elementExistsParse env).2).isSome
    rcases hshape env with h1 | ⟨b, h1⟩
    · rw [h1]
      exact ⟨rfl, rfl⟩
    · rw [h1] at hs
      simp at hs
  have hnf : NeverFound resps := by
    intro m hcon
    have h := hexists m
    rw [hcon] at h
    simp at h
  obtain ⟨t', ht, h1, h2⟩ := waitFor_never resps hnf
  refine ⟨hshape, hexists, ⟨t', ht, h1, h2⟩, ?_, ?_, ?_⟩
  · rw [Fill_timedOut sel v resps t' ht]
  · rw [Click_timedOut sel resps ce t' ht]
  · rw [InnerText_timedOut sel resps actResp t' ht]

/-- Witness for C10: the persistently singly-nested (shape-mismatched)
existence oracle. -/
theorem C10_witness :
    (∀ m, ∃ env, respsBadShape m = Except.ok env ∧
      ((elementExistsParse env).2).isSome) ∧
    ((∀ env2 : Env,
       elementExistsParse env2 = (false, some "unexpected response format") ∨
       ∃ b, elementExistsParse env2 = (b, none)) ∧
     (∀ m, (elementExists (respsBadShape m)).1 = false ∧
       ((elementExists (respsBadShape m)).2).isSome) ∧
     (∃ t', waitFor respsBadShape 0 0 = .timedOut t' ∧ timeoutMs < t' ∧
       t' ≤ timeoutMs + intervalMs) ∧
     (Fill "#f" "v" respsBadShape).1 = .fatal (LocatorTimeoutMsg "#f") ∧
     (Click "#f" respsBadShape none).1 = .fatal (LocatorTimeoutMsg "#f") ∧
     (InnerText "#f" respsBadShape (Except.ok evalEnvelope)).1 =
       .fatal (LocatorTimeoutMsg "#f")) := by
  have hbad : ∀ m, ∃ env, respsBadShape m = Except.ok env ∧
      ((elementExistsParse env).2).isSome := fun m => ⟨badShapeEnv, rfl, rfl⟩
  exact ⟨hbad,
    C10_malformed_existence_retried "#f" "v" respsBadShape (Except.ok evalEnvelope)
      none hbad⟩

end Greenlight
